import Mathlib

/-!
# Verification of the pi-browser workflow engine

Shallow embedding of the workflow execution engine, the workflow store and
the recurrence scheduler of the pi-browser repository
(`src/workflow/types.ts`, `src/workflow/executor.ts`, `src/workflow/storage.ts`,
`src/workflow/scheduler.ts`), together with proofs of the testable
properties stated for those components.

Modelling conventions:
* JavaScript numbers that hold epoch milliseconds or counts are modelled as
  `Nat`; the one signed intermediate (`daysUntil` in the weekly schedule
  computation) is computed in `Int` exactly as the source does.
* `Date.now()` is modelled by threading an explicit `now : Nat` parameter;
  wall-clock result fields (`startTime`, `endTime`, log timestamps) and the
  log list, which no verified property mentions, are omitted from the model.
* The JavaScript `Date` calendar is modelled at fixed UTC with 86,400,000 ms
  days (day 0, 1970-01-01, is a Thursday, so `getDay` is
  `(t / dayMs + 4) % 7`); daylight-saving shifts are outside the model.
* The asynchronous Agent Runner is modelled as an environment giving the
  outcome of the n-th agent call; the cooperative `aborted` flag is modelled
  by an optional suspension index `abortAt`: the flag reads true once the
  executor has passed that many suspension points (awaited agent calls and
  back-off sleeps), which is exactly the cooperative-cancellation semantics
  of the source.
* JavaScript truthiness tests on optional fields (`!nextRun`,
  `value || default`) are translated case by case, preserving the fact that
  `0` and the empty string are falsy.
-/

namespace PiBrowser

/-- Milliseconds in one day. -/
def dayMs : Nat := 86400000

/-! ## Data model (`src/workflow/types.ts`) -/

/-- One step of a step-mode workflow.  `onSuccess` and `onFailure` are either
the sentinels `"next"` / `"end"` (`onFailure` also `"retry"`) or the id of
another step. -/
structure WorkflowStep where
  id : String
  name : String
  prompt : String
  maxTurns : Option Nat
  onSuccess : String
  onFailure : String
  retryCount : Option Nat
  deriving Repr, DecidableEq

/-- Recurrence descriptor embedded in a workflow. -/
inductive ScheduleType where
  | interval
  | daily
  | weekly
  deriving Repr, DecidableEq

/-- The `schedule` field of a workflow. -/
structure Schedule where
  enabled : Bool
  type : ScheduleType
  intervalMinutes : Option Nat
  time : Option String
  dayOfWeek : Option Nat
  lastRun : Option Nat
  nextRun : Option Nat
  deriving Repr, DecidableEq

/-- A workflow record. -/
structure Workflow where
  id : String
  name : String
  description : Option String
  enabled : Bool
  mission : Option String
  maxTurns : Option Nat
  steps : List WorkflowStep
  createdAt : Nat
  updatedAt : Nat
  schedule : Option Schedule
  deriving Repr, DecidableEq

/-- Default per-step agent turn bound (`DEFAULT_MAX_TURNS` in the source). -/
def DEFAULT_MAX_TURNS : Nat := 20

/-- The result returned by one executor run.  The wall-clock fields
`startTime` / `endTime` and the log list of the source are omitted (see the
module docstring). -/
structure WorkflowExecutionResult where
  success : Bool
  workflowId : String
  stepsExecuted : Nat
  lastStepId : Option String
  error : Option String
  deriving Repr, DecidableEq

/-! ## Agent Runner environment and executor state -/

/-- Outcome of one Agent Runner call: a returned verdict, or a raised
exception with its message. -/
inductive AgentOutcome where
  | ok (success : Bool) (result : String)
  | raise (msg : String)
  deriving Repr, DecidableEq

/-- Whether an agent outcome counts as step success in `executeStep`:
a returned `success = true`.  A returned failure or a raised exception both
yield `false` there. -/
def AgentOutcome.isSuccess : AgentOutcome → Bool
  | .ok true _ => true
  | _ => false

/-- Execution environment: the outcome of the n-th Agent Runner call
(counted from 0 across the whole run), and the suspension index at which an
external `abort()` call is delivered (`none` = never).  `abortAt = some t`
means the flag is set during the t-th awaited suspension, so it reads true
at every cooperative check from then on (`abortAt = some 0` is an abort
before the run starts). -/
structure AgentEnv where
  agent : Nat → AgentOutcome
  abortAt : Option Nat

/-- Mutable executor state threaded through the run: the number of completed
suspension points, the trace of agent calls made (prompt and maxTurns of
each), and the accumulated back-off sleep in milliseconds. -/
structure ExecState where
  time : Nat
  trace : List (String × Nat)
  sleptMs : Nat
  deriving Repr, DecidableEq

/-- Initial executor state. -/
def initState : ExecState := ⟨0, [], 0⟩

/-- The cooperative `this.aborted` flag as read at the current state. -/
def aborted (env : AgentEnv) (st : ExecState) : Bool :=
  match env.abortAt with
  | some t => t ≤ st.time
  | none => false

/-- One awaited Agent Runner call: records the prompt and turn bound in the
trace and passes one suspension point. -/
def callAgent (env : AgentEnv) (st : ExecState) (prompt : String) (maxTurns : Nat) :
    AgentOutcome × ExecState :=
  (env.agent st.trace.length,
   { st with time := st.time + 1, trace := st.trace ++ [(prompt, maxTurns)] })

/-- The fixed 1-second back-off sleep before a retry: one suspension point,
1000 ms slept. -/
def backoff (st : ExecState) : ExecState :=
  { st with time := st.time + 1, sleptMs := st.sleptMs + 1000 }

/-! ## Workflow executor (`src/workflow/executor.ts`) -/

/-- `step.maxTurns || DEFAULT_MAX_TURNS` (0 is falsy like `undefined`). -/
def effectiveStepTurns (step : WorkflowStep) : Nat :=
  match step.maxTurns with
  | some 0 => DEFAULT_MAX_TURNS
  | some n => n
  | none => DEFAULT_MAX_TURNS

/-- `WorkflowExecutor.executeStep`: one Agent Runner call with the step
prompt and `step.maxTurns || DEFAULT_MAX_TURNS`; a returned failure and a
raised exception both count as `false`. -/
def executeStep (env : AgentEnv) (step : WorkflowStep) (st : ExecState) :
    Bool × ExecState :=
  let res := callAgent env st step.prompt (effectiveStepTurns step)
  (res.1.isSuccess, res.2)

/-- The retry loop of `executeStepWithRetry`: `remaining` counts the loop
iterations still allowed (`maxRetries + 1 - attempt`), `first` tells whether
this is the first attempt (so no back-off sleep precedes it).  The aborted
flag is checked at the top of every iteration. -/
def retryLoop (env : AgentEnv) (step : WorkflowStep) :
    Nat → Bool → ExecState → Bool × ExecState
  | 0, _, st => (false, st)
  | remaining + 1, first, st =>
    if aborted env st then (false, st)
    else
      let st1 := if first then st else backoff st
      let res := executeStep env step st1
      if res.1 then (true, res.2)
      else retryLoop env step remaining false res.2

/-- `WorkflowExecutor.executeStepWithRetry`: up to `retryCount + 1` attempts
of the same step (`step.retryCount || 0` re-attempts), with a 1-second
back-off before each re-attempt. -/
def executeStepWithRetry (env : AgentEnv) (step : WorkflowStep) (st : ExecState) :
    Bool × ExecState :=
  let maxRetries := step.retryCount.getD 0
  retryLoop env step (maxRetries + 1) true st

/-- The branch reference selected by a step outcome
(`success ? step.onSuccess : step.onFailure`). -/
def branchRef (step : WorkflowStep) (success : Bool) : String :=
  if success then step.onSuccess else step.onFailure

/-- `WorkflowExecutor.findNextStep`: resolve the branch reference selected
by the step outcome.  `"end"` and `"retry"` are terminal; `"next"` takes the
step after the current one in `steps` (none when last or not found,
mirroring the `currentIndex < 0 || currentIndex >= steps.length - 1` test);
any other string is looked up as a step id. -/
def findNextStep (wf : Workflow) (step : WorkflowStep) (success : Bool) :
    Option WorkflowStep :=
  let nextStepRef := branchRef step success
  if nextStepRef = "end" then none
  else if nextStepRef = "next" then
    match wf.steps.findIdx? (fun s => s.id = step.id) with
    | none => none
    | some currentIndex =>
      if currentIndex + 1 < wf.steps.length then wf.steps[currentIndex + 1]?
      else none
  else if nextStepRef = "retry" then none
  else wf.steps.find? (fun s => s.id = nextStepRef)

/-- Error message of the scheduler-independent abort outcome. -/
def abortErrorMsg : String := "사용자에 의해 중단됨"

/-- Error message when the 50-step execution cap trips. -/
def limitErrorMsg : String := "단계 실행 횟수 초과 (50회)"

/-- Error message when a step fails with no continuation. -/
def stepFailErrorMsg : String := "단계 실패로 워크플로우 종료"

/-- Error message when a workflow has neither mission nor steps. -/
def emptyWorkflowErrorMsg : String := "미션 또는 단계를 입력하세요"

/-- `workflow.maxTurns || 30` (0 is falsy like `undefined`). -/
def effectiveMissionTurns (wf : Workflow) : Nat :=
  match wf.maxTurns with
  | some 0 => 30
  | some n => n
  | none => 30

/-- `WorkflowExecutor.executeMission`: a single Agent Runner call with the
mission text and `workflow.maxTurns || 30`; a raised exception is a failure
with the exception message, and the result always reports one executed step
with `lastStepId = "mission"`.  The source reads the mission with a
non-null assertion under the mission-mode guard of `execute`; here the
empty string stands in for the impossible absent case. -/
def executeMission (env : AgentEnv) (wf : Workflow) (st : ExecState) :
    WorkflowExecutionResult × ExecState :=
  let mission := wf.mission.getD ""
  let res := callAgent env st mission (effectiveMissionTurns wf)
  match res.1 with
  | .ok success result =>
    ({ success := success
       workflowId := wf.id
       stepsExecuted := 1
       lastStepId := some "mission"
       error := if success then none else some result }, res.2)
  | .raise msg =>
    ({ success := false
       workflowId := wf.id
       stepsExecuted := 1
       lastStepId := some "mission"
       error := some msg }, res.2)

/-- JavaScript `String.prototype.trim`, written by structural recursion on
the character list (the core `String.trim` is extensionally the same but is
not reducible by the kernel): drop leading and trailing whitespace. -/
def jsTrim (s : String) : String :=
  ⟨((s.data.dropWhile Char.isWhitespace).reverse.dropWhile Char.isWhitespace).reverse⟩

/-- The mission-mode guard of `execute`:
`this.workflow.mission && this.workflow.mission.trim()` (both the raw
string and its trim must be truthy, i.e. nonempty). -/
def missionMode (wf : Workflow) : Bool :=
  match wf.mission with
  | some m => !(m = "") && !(jsTrim m = "")
  | none => false

/-- The step-mode `while` loop of `execute`.  Returns the final
`stepsExecuted`, `lastStepId`, `error` and state.  Each iteration
increments the counter, breaks with `limitErrorMsg` past 50, runs the step
with retry, resolves the next step, and breaks with `stepFailErrorMsg` when
a failed step has no continuation.  `fuel` only bounds the recursion; the
counter check makes `execute`'s initial fuel of 51 unreachable. -/
def execLoop (env : AgentEnv) (wf : Workflow) :
    Nat → Option WorkflowStep → Nat → Option String → ExecState →
    Nat × Option String × Option String × ExecState
  | 0, _, stepsExecuted, lastStepId, st => (stepsExecuted, lastStepId, none, st)
  | _ + 1, none, stepsExecuted, lastStepId, st => (stepsExecuted, lastStepId, none, st)
  | fuel + 1, some step, stepsExecuted, lastStepId, st =>
    if aborted env st then (stepsExecuted, lastStepId, none, st)
    else
      let lastStepId := some step.id
      let stepsExecuted := stepsExecuted + 1
      if 50 < stepsExecuted then (stepsExecuted, lastStepId, some limitErrorMsg, st)
      else
        let res := executeStepWithRetry env step st
        let nextStep := findNextStep wf step res.1
        if !res.1 && nextStep.isNone then
          (stepsExecuted, lastStepId, some stepFailErrorMsg, res.2)
        else
          execLoop env wf fuel nextStep stepsExecuted lastStepId res.2

/-- `WorkflowExecutor.execute`: mission mode when the mission is nonempty
after trimming; otherwise the step walk, rejecting an empty step list, and
finally folding the aborted flag into the error and success fields exactly
as the source does. -/
def execute (env : AgentEnv) (wf : Workflow) (st : ExecState) :
    WorkflowExecutionResult × ExecState :=
  if missionMode wf then executeMission env wf st
  else if wf.steps.length = 0 then
    ({ success := false
       workflowId := wf.id
       stepsExecuted := 0
       lastStepId := none
       error := some emptyWorkflowErrorMsg }, st)
  else
    let r := execLoop env wf 51 wf.steps[0]? 0 none st
    let st1 := r.2.2.2
    let error := if aborted env st1 then some abortErrorMsg else r.2.2.1
    let success := !error.isSome && !aborted env st1
    ({ success := success
       workflowId := wf.id
       stepsExecuted := r.1
       lastStepId := r.2.1
       error := error }, st1)

/-! ## Workflow store (`src/workflow/storage.ts`)

The store keeps one record per workflow id.  It is modelled as a list of
records; `saveWorkflow` is the read-modify-write upsert (stamping
`updatedAt`), `loadWorkflows` the load-all with its stable sort by
`updatedAt` descending.  File-system failure modes (unreadable records are
skipped with a warning) are outside the model. -/

/-- `saveWorkflow`: stamp `updatedAt` with the save instant and upsert the
record under its id. -/
def saveWorkflow (store : List Workflow) (now : Nat) (wf : Workflow) :
    List Workflow :=
  let wf := { wf with updatedAt := now }
  if store.any (fun w => w.id = wf.id) then
    store.map (fun w => if w.id = wf.id then wf else w)
  else store ++ [wf]

/-- Stable insertion into a list sorted by `updatedAt` descending. -/
def insertByUpdatedAt (wf : Workflow) : List Workflow → List Workflow
  | [] => [wf]
  | w :: ws =>
    if w.updatedAt ≤ wf.updatedAt then wf :: w :: ws
    else w :: insertByUpdatedAt wf ws

/-- `loadWorkflows`: all records, sorted by `updatedAt` descending
(`(a, b) => b.updatedAt - a.updatedAt`, a stable sort). -/
def loadWorkflows (store : List Workflow) : List Workflow :=
  match store with
  | [] => []
  | w :: ws => insertByUpdatedAt w (loadWorkflows ws)

/-- `duplicateWorkflow`: deep clone with a freshly generated id, the name
decorated with the copy suffix, and fresh timestamps; every other field is
copied verbatim.  The generated id and `Date.now()` are passed explicitly. -/
def duplicateWorkflow (wf : Workflow) (now : Nat) (newId : String) : Workflow :=
  { wf with
    id := newId
    name := wf.name ++ " (복사본)"
    createdAt := now
    updatedAt := now }

/-- The JSON object produced by parsing an exported workflow: every field
may be absent, and `steps` is `none` when the parsed value is not an array
(the `Array.isArray` test). -/
structure RawWorkflow where
  id : Option String
  name : Option String
  description : Option String
  enabled : Option Bool
  mission : Option String
  maxTurns : Option Nat
  steps : Option (List WorkflowStep)
  createdAt : Option Nat
  updatedAt : Option Nat
  schedule : Option Schedule
  deriving Repr, DecidableEq

/-- `exportWorkflow`: `JSON.stringify` of the record, i.e. the raw object
holding every field of the workflow. -/
def exportWorkflow (wf : Workflow) : RawWorkflow :=
  { id := some wf.id
    name := some wf.name
    description := wf.description
    enabled := some wf.enabled
    mission := wf.mission
    maxTurns := wf.maxTurns
    steps := some wf.steps
    createdAt := some wf.createdAt
    updatedAt := some wf.updatedAt
    schedule := wf.schedule }

/-- `importWorkflow`: reject unless `workflow.name` is truthy (present and
nonempty) and `workflow.steps` is an array; otherwise keep the imported
fields but overwrite id and both timestamps with fresh values.  An absent
`enabled` is modelled as `false`, which is how the source treats the
undefined field at every use site. -/
def importWorkflow (raw : RawWorkflow) (now : Nat) (newId : String) :
    Option Workflow :=
  match raw.name, raw.steps with
  | some name, some steps =>
    if name = "" then none
    else
      some
        { id := newId
          name := name
          description := raw.description
          enabled := raw.enabled.getD false
          mission := raw.mission
          maxTurns := raw.maxTurns
          steps := steps
          createdAt := now
          updatedAt := now
          schedule := raw.schedule }
  | _, _ => none

/-! ## Scheduler (`src/workflow/scheduler.ts`) -/

/-- Split a character list at every occurrence of a separator, the
semantics of `"HH:MM".split(":")` (written structurally so the kernel can
evaluate it). -/
def splitAtChar (sep : Char) (cs : List Char) : List (List Char) :=
  cs.foldr
    (fun c acc =>
      if c = sep then [] :: acc
      else match acc with
        | [] => [[c]]
        | field :: rest => (c :: field) :: rest)
    [[]]

/-- Decimal digit parsing, the semantics of JavaScript `Number` on the
components of a well-formed `"HH:MM"` string (kernel-evaluable counterpart
of `String.toNat?`).  A component with a non-digit is modelled as 0, where
the source would produce `NaN` — no verified property concerns malformed
times. -/
def digitsToNat (cs : List Char) : Nat :=
  if cs.all Char.isDigit then
    cs.foldl (fun n c => n * 10 + (c.toNat - 48)) 0
  else 0

/-- Parse the `"HH:MM"` schedule time, defaulting a falsy field to
`"09:00"`: `(schedule.time || "09:00").split(":").map(Number)`. -/
def parseTimeField (time : Option String) : Nat × Nat :=
  let t := match time with
    | none => "09:00"
    | some s => if s = "" then "09:00" else s
  let parts := splitAtChar ':' t.data
  (digitsToNat (parts[0]?.getD []), digitsToNat (parts[1]?.getD []))

/-- Midnight of the (UTC-modelled) day containing `t`. -/
def startOfDay (t : Nat) : Nat := t - t % dayMs

/-- `Date.prototype.getDay` of an instant in the UTC model:
0 = Sunday, and day 0 of the epoch is a Thursday. -/
def weekdayOf (t : Nat) : Nat := (t / dayMs + 4) % 7

/-- `calculateNextRun`: the next due instant of a workflow at time `now`,
or `none` when there is no enabled schedule.
* `interval`: `lastRun || 0` plus `(intervalMinutes || 60) * 60 * 1000`.
* `daily`: today at the configured time, rolled one day forward when that
  instant is already ≤ now.
* `weekly`: the configured weekday at the configured time; `daysUntil` is
  computed in `Int` exactly as in the source and wrapped a week forward when
  negative, or when zero with the time already passed. -/
def calculateNextRun (wf : Workflow) (now : Nat) : Option Nat :=
  match wf.schedule with
  | none => none
  | some schedule =>
    if !schedule.enabled then none
    else
      match schedule.type with
      | .interval =>
        let intervalMs := (match schedule.intervalMinutes with
          | some 0 => 60
          | some n => n
          | none => 60) * 60 * 1000
        let lastRun := schedule.lastRun.getD 0
        some (lastRun + intervalMs)
      | .daily =>
        let (hours, minutes) := parseTimeField schedule.time
        let next := startOfDay now + hours * 3600000 + minutes * 60000
        if next ≤ now then some (next + dayMs) else some next
      | .weekly =>
        let (hours, minutes) := parseTimeField schedule.time
        let targetDay := schedule.dayOfWeek.getD 1
        let next := startOfDay now + hours * 3600000 + minutes * 60000
        let currentDay := weekdayOf next
        let daysUntil : Int := (targetDay : Int) - (currentDay : Int)
        let daysUntil :=
          if daysUntil < 0 || (daysUntil = 0 && next ≤ now) then daysUntil + 7
          else daysUntil
        some (next + daysUntil.toNat * dayMs)

/-- JavaScript `value || undefined` on an optional number: collapse a
present 0 to `none`. -/
def orUndefined : Option Nat → Option Nat
  | some 0 => none
  | v => v

/-- JavaScript `!schedule.nextRun`: the field is falsy when absent or 0. -/
def nextRunUnset (schedule : Schedule) : Bool :=
  match schedule.nextRun with
  | none => true
  | some n => n = 0

/-- Host callbacks handed to the scheduler; `onWorkflowRun` either returns
or raises with a message. -/
structure SchedulerEnv where
  onWorkflowRun : Workflow → Except String Unit

/-- The body of the `checkSchedules` loop for one loaded workflow: skip it
unless both the schedule and the workflow are enabled; compute and persist a
missing `nextRun` without running; when due, invoke the run callback and
update `lastRun` / `nextRun` and persist only if the callback did not
raise.  `Date.now()` inside the tick is modelled as the tick instant. -/
def processScheduledWorkflow (env : SchedulerEnv) (now : Nat)
    (store : List Workflow) (wf : Workflow) : List Workflow :=
  match wf.schedule with
  | none => store
  | some schedule =>
    if !schedule.enabled || !wf.enabled then store
    else if nextRunUnset schedule then
      let wf := { wf with
        schedule := some { schedule with nextRun := orUndefined (calculateNextRun wf now) } }
      saveWorkflow store now wf
    else if schedule.nextRun.getD 0 ≤ now then
      match env.onWorkflowRun wf with
      | .ok _ =>
        let wf := { wf with
          schedule := some { schedule with lastRun := some now } }
        let wf := { wf with
          schedule := (wf.schedule.map fun s =>
            { s with nextRun := orUndefined (calculateNextRun wf now) }) }
        saveWorkflow store now wf
      | .error _ => store
    else store

/-- `checkSchedules`: one scheduler tick over a snapshot of the store,
processing the loaded workflows sequentially and threading the store
through the per-workflow saves. -/
def checkSchedules (env : SchedulerEnv) (now : Nat) (store : List Workflow) :
    List Workflow :=
  (loadWorkflows store).foldl (processScheduledWorkflow env now) store

/-- A workflow is due at `now` exactly when a tick at `now` would invoke
the run callback for it: both enabled flags set, `nextRun` truthy and at or
before `now`. -/
def isDue (wf : Workflow) (now : Nat) : Bool :=
  match wf.schedule with
  | none => false
  | some schedule =>
    schedule.enabled && wf.enabled && !nextRunUnset schedule &&
      schedule.nextRun.getD 0 ≤ now

/-! ## Verified properties -/

/-- C10: `duplicateWorkflow` changes only `id`, `name`, `createdAt` and
`updatedAt`; every other field — in particular the schedule with its
`lastRun` / `nextRun` bookkeeping — is copied verbatim, so the duplicate of
a due scheduled workflow is due at exactly the same instants. -/
theorem duplicateWorkflow_frame (wf : Workflow) (now : Nat) (newId : String) :
    (duplicateWorkflow wf now newId).description = wf.description ∧
    (duplicateWorkflow wf now newId).enabled = wf.enabled ∧
    (duplicateWorkflow wf now newId).mission = wf.mission ∧
    (duplicateWorkflow wf now newId).maxTurns = wf.maxTurns ∧
    (duplicateWorkflow wf now newId).steps = wf.steps ∧
    (duplicateWorkflow wf now newId).schedule = wf.schedule ∧
    (duplicateWorkflow wf now newId).id = newId ∧
    (duplicateWorkflow wf now newId).name = wf.name ++ " (복사본)" ∧
    (duplicateWorkflow wf now newId).createdAt = now ∧
    (duplicateWorkflow wf now newId).updatedAt = now ∧
    ∀ t, isDue (duplicateWorkflow wf now newId) t = isDue wf t :=
  ⟨rfl, rfl, rfl, rfl, rfl, rfl, rfl, rfl, rfl, rfl, fun _ => rfl⟩

/-- C9: importing an exported workflow succeeds whenever the name is
nonempty, preserving `name`, `description`, `steps`, `mission` and
`schedule` while assigning the freshly generated id and fresh timestamps;
input whose name is missing or empty, or whose steps are not an array, is
rejected. -/
theorem importWorkflow_roundTrip (wf : Workflow) (now : Nat) (newId : String)
    (hname : wf.name ≠ "") :
    (∃ wf2, importWorkflow (exportWorkflow wf) now newId = some wf2 ∧
      wf2.name = wf.name ∧ wf2.description = wf.description ∧
      wf2.steps = wf.steps ∧ wf2.mission = wf.mission ∧
      wf2.schedule = wf.schedule ∧ wf2.id = newId ∧
      wf2.createdAt = now ∧ wf2.updatedAt = now) ∧
    (∀ raw : RawWorkflow,
      (raw.name = none ∨ raw.name = some "" ∨ raw.steps = none) →
      importWorkflow raw now newId = none) := by
  constructor
  · refine ⟨{ wf with id := newId, createdAt := now, updatedAt := now },
      ?_, rfl, rfl, rfl, rfl, rfl, rfl, rfl, rfl⟩
    simp [importWorkflow, exportWorkflow, hname]
  · intro raw h
    rcases h with h | h | h
    · simp [importWorkflow, h]
    · cases hs : raw.steps <;> simp [importWorkflow, h, hs]
    · cases hn : raw.name <;> simp [importWorkflow, h, hn]

/-- Sample workflow for the concrete round-trip instance. -/
def wfRT : Workflow :=
  { id := "wf-old"
    name := "블로그 작성"
    description := some "demo"
    enabled := true
    mission := some "write a post"
    maxTurns := some 12
    steps := [⟨"s1", "open", "open the editor", some 5, "next", "end", some 2⟩]
    createdAt := 111
    updatedAt := 222
    schedule := some ⟨true, .daily, none, some "09:00", none, some 1, some 2⟩ }

/-- Witness for C9 at a concrete workflow. -/
theorem importWorkflow_roundTrip_witness :
    (∃ wf2, importWorkflow (exportWorkflow wfRT) 500 "wf-new" = some wf2 ∧
      wf2.name = wfRT.name ∧ wf2.description = wfRT.description ∧
      wf2.steps = wfRT.steps ∧ wf2.mission = wfRT.mission ∧
      wf2.schedule = wfRT.schedule ∧ wf2.id = "wf-new" ∧
      wf2.createdAt = 500 ∧ wf2.updatedAt = 500) ∧
    (∀ raw : RawWorkflow,
      (raw.name = none ∨ raw.name = some "" ∨ raw.steps = none) →
      importWorkflow raw 500 "wf-new" = none) :=
  importWorkflow_roundTrip wfRT 500 "wf-new" (by decide)

/-- C4: `findNextStep` resolves the selected branch reference as specified:
the sentinels `"end"` and `"retry"` yield no next step; `"next"` yields the
entry after the first occurrence of the current step id (so no next step on
the last step, or when the id does not occur); any other reference is an id
lookup among the steps, with `find?` returning `none` on an unmatched id. -/
theorem findNextStep_branch_resolution (wf : Workflow) (step : WorkflowStep)
    (success : Bool) :
    (branchRef step success = "end" → findNextStep wf step success = none) ∧
    (branchRef step success = "retry" → findNextStep wf step success = none) ∧
    (branchRef step success = "next" →
      findNextStep wf step success =
        (wf.steps.findIdx? fun s => s.id = step.id).bind
          fun i => wf.steps[i + 1]?) ∧
    (branchRef step success = "next" →
      (wf.steps.findIdx? fun s => s.id = step.id) =
        some (wf.steps.length - 1) →
      findNextStep wf step success = none) ∧
    (branchRef step success ≠ "end" → branchRef step success ≠ "next" →
      branchRef step success ≠ "retry" →
      findNextStep wf step success =
        wf.steps.find? fun s => s.id = branchRef step success) := by
  refine ⟨fun h => ?_, fun h => ?_, fun h => ?_, fun h hlast => ?_,
    fun h1 h2 h3 => ?_⟩
  · simp [findNextStep, h]
  · simp [findNextStep, h]
  · rw [findNextStep, h]
    simp only [reduceIte, String.reduceEq]
    cases hidx : wf.steps.findIdx? fun s => s.id = step.id with
    | none => simp
    | some i =>
      simp only [Option.bind_some]
      split
      · rfl
      · exact (List.getElem?_eq_none (by omega)).symm
  · rw [findNextStep, h]
    simp only [reduceIte, String.reduceEq, hlast]
    rw [List.getElem?_eq_none (by omega)]
    simp
  · rw [findNextStep]
    simp only [if_neg h1, if_neg h2, if_neg h3]

/-- Steps of the concrete branch-resolution instance. -/
def brStep1 : WorkflowStep := ⟨"b1", "B1", "p1", none, "next", "end", none⟩

def brStep2 : WorkflowStep := ⟨"b2", "B2", "p2", none, "b4", "retry", none⟩

def brStep3 : WorkflowStep := ⟨"b3", "B3", "p3", none, "next", "b1", none⟩

def brStep4 : WorkflowStep := ⟨"b4", "B4", "p4", none, "next", "zz", none⟩

/-- Workflow of the concrete branch-resolution instance. -/
def wfBr : Workflow :=
  ⟨"wbr", "WBR", none, true, none, none, [brStep1, brStep2, brStep3, brStep4],
    0, 0, none⟩

/-- Witness for C4: every branch-resolution case at a concrete workflow. -/
theorem findNextStep_branch_resolution_witness :
    findNextStep wfBr brStep1 false = none ∧
    findNextStep wfBr brStep2 false = none ∧
    findNextStep wfBr brStep1 true = some brStep2 ∧
    findNextStep wfBr brStep4 true = none ∧
    findNextStep wfBr brStep2 true = some brStep4 ∧
    findNextStep wfBr brStep4 false = none := by
  refine ⟨(findNextStep_branch_resolution wfBr brStep1 false).1 rfl,
    (findNextStep_branch_resolution wfBr brStep2 false).2.1 rfl, ?_,
    (findNextStep_branch_resolution wfBr brStep4 true).2.2.2.1 rfl (by decide),
    ?_, ?_⟩
  · rw [(findNextStep_branch_resolution wfBr brStep1 true).2.2.1 rfl]
    decide
  · rw [(findNextStep_branch_resolution wfBr brStep2 true).2.2.2.2
      (by decide) (by decide) (by decide)]
    decide
  · rw [(findNextStep_branch_resolution wfBr brStep4 false).2.2.2.2
      (by decide) (by decide) (by decide)]
    decide

/-- The trace of one `executeStep` call extends the old trace by exactly
the step call. -/
theorem executeStep_eq (env : AgentEnv) (step : WorkflowStep) (st : ExecState) :
    executeStep env step st =
      ((env.agent st.trace.length).isSuccess,
        ⟨st.time + 1, st.trace ++ [(step.prompt, effectiveStepTurns step)],
          st.sleptMs⟩) := rfl

/-- Full characterization of the retry loop: the segment of agent calls it
appends to the trace, what the boolean result means, the back-off
accounting, and that an observed abort stops the loop before the next
attempt. -/
theorem retryLoop_spec (env : AgentEnv) (step : WorkflowStep) :
    ∀ (remaining : Nat) (first : Bool) (st : ExecState),
    ∃ calls : List (String × Nat),
      (retryLoop env step remaining first st).2.trace = st.trace ++ calls ∧
      calls.length ≤ remaining ∧
      (∀ c ∈ calls, c = (step.prompt, effectiveStepTurns step)) ∧
      ((retryLoop env step remaining first st).1 = true →
        calls ≠ [] ∧
        (env.agent (st.trace.length + (calls.length - 1))).isSuccess = true ∧
        ∀ j < calls.length - 1,
          (env.agent (st.trace.length + j)).isSuccess = false) ∧
      ((retryLoop env step remaining first st).1 = false →
        (∀ j < calls.length,
          (env.agent (st.trace.length + j)).isSuccess = false) ∧
        (calls.length = remaining ∨
          aborted env (retryLoop env step remaining first st).2 = true)) ∧
      (retryLoop env step remaining first st).2.sleptMs =
        st.sleptMs +
          (if first then 1000 * (calls.length - 1) else 1000 * calls.length) ∧
      (aborted env st = true →
        calls = [] ∧ (retryLoop env step remaining first st).2 = st ∧
        (retryLoop env step remaining first st).1 = false) := by
  intro remaining
  induction remaining with
  | zero =>
    intro first st
    refine ⟨[], by simp [retryLoop], by simp, by simp, ?_, ?_, ?_, ?_⟩
    · intro h; simp [retryLoop] at h
    · intro _
      exact ⟨by simp, Or.inl rfl⟩
    · cases first <;> simp [retryLoop]
    · intro _
      exact ⟨rfl, rfl, rfl⟩
  | succ n ih =>
    intro first st
    by_cases hab : aborted env st = true
    · have hr : retryLoop env step (n + 1) first st = (false, st) := by
        simp [retryLoop, hab]
      refine ⟨[], by simp [hr], by simp, by simp, ?_, ?_, ?_, ?_⟩
      · intro h; rw [hr] at h; simp at h
      · intro _
        exact ⟨by simp, Or.inr (by rw [hr]; exact hab)⟩
      · cases first <;> simp [hr]
      · intro _
        exact ⟨rfl, by rw [hr], by rw [hr]⟩
    · have hab' : aborted env st = false := by
        revert hab; cases aborted env st <;> simp
      have htr1 : (if first then st else backoff st).trace = st.trace := by
        cases first <;> rfl
      have htime1 : (if first then st else backoff st).sleptMs =
          (if first then st.sleptMs else st.sleptMs + 1000) := by
        cases first <;> rfl
      have hr : retryLoop env step (n + 1) first st =
          (if (env.agent st.trace.length).isSuccess then
            (true, ⟨(if first then st else backoff st).time + 1,
              st.trace ++ [(step.prompt, effectiveStepTurns step)],
              (if first then st else backoff st).sleptMs⟩)
          else retryLoop env step n false
            ⟨(if first then st else backoff st).time + 1,
              st.trace ++ [(step.prompt, effectiveStepTurns step)],
              (if first then st else backoff st).sleptMs⟩) := by
        conv =>
          lhs
          rw [retryLoop]
        simp only [hab', Bool.false_eq_true, if_false, executeStep_eq, htr1]
      cases hs : (env.agent st.trace.length).isSuccess with
      | true =>
        rw [hs] at hr
        simp only [if_true] at hr
        refine ⟨[(step.prompt, effectiveStepTurns step)],
          by rw [hr], by simp, by simp, ?_, ?_, ?_, ?_⟩
        · intro _
          refine ⟨by simp, ?_, ?_⟩
          · simpa using hs
          · intro j hj
            simp only [List.length_cons, List.length_nil] at hj
            omega
        · intro h; rw [hr] at h; simp at h
        · rw [hr]
          simp only [List.length_cons, List.length_nil]
          cases first <;> simp [htime1] at htime1 ⊢ <;> omega
        · intro h; rw [hab'] at h; cases h
      | false =>
        rw [hs] at hr
        simp only [Bool.false_eq_true, if_false] at hr
        obtain ⟨calls2, h1, h2, h3, h4, h5, h6, _⟩ :=
          ih false ⟨(if first then st else backoff st).time + 1,
            st.trace ++ [(step.prompt, effectiveStepTurns step)],
            (if first then st else backoff st).sleptMs⟩
        have hlen2 : (st.trace ++ [(step.prompt, effectiveStepTurns step)]).length =
            st.trace.length + 1 := by simp
        refine ⟨(step.prompt, effectiveStepTurns step) :: calls2, ?_, ?_, ?_,
          ?_, ?_, ?_, ?_⟩
        · rw [hr, h1]; simp
        · simp only [List.length_cons]; omega
        · intro c hc
          rcases List.mem_cons.mp hc with h | h
          · exact h
          · exact h3 c h
        · intro ht
          rw [hr] at ht
          obtain ⟨h4a, h4b, h4c⟩ := h4 ht
          have hpos : 1 ≤ calls2.length := List.length_pos.mpr h4a
          refine ⟨by simp, ?_, ?_⟩
          · rw [hlen2] at h4b
            have heq : st.trace.length +
                (((step.prompt, effectiveStepTurns step) :: calls2).length - 1) =
                st.trace.length + 1 + (calls2.length - 1) := by
              simp only [List.length_cons]
              omega
            rw [heq]
            exact h4b
          · intro j hj
            simp only [List.length_cons] at hj
            match j with
            | 0 => simpa using hs
            | k + 1 =>
              have hk : k < calls2.length - 1 := by omega
              have hc := h4c k hk
              rw [hlen2] at hc
              have harith : st.trace.length + 1 + k = st.trace.length + (k + 1) := by
                omega
              rwa [harith] at hc
        · intro hf
          rw [hr] at hf
          obtain ⟨h5a, h5b⟩ := h5 hf
          constructor
          · intro j hj
            simp only [List.length_cons] at hj
            match j with
            | 0 => simpa using hs
            | k + 1 =>
              have hk : k < calls2.length := by omega
              have hc := h5a k hk
              rw [hlen2] at hc
              have harith : st.trace.length + 1 + k = st.trace.length + (k + 1) := by
                omega
              rwa [harith] at hc
          · rcases h5b with h | h
            · exact Or.inl (by simp only [List.length_cons]; omega)
            · exact Or.inr (by rw [hr]; exact h)
        · rw [hr, h6]
          simp only [List.length_cons]
          cases first <;> simp [htime1] at htime1 ⊢ <;> omega
        · intro h; rw [hab'] at h; cases h

/-- C6: `executeStepWithRetry` makes at most `retryCount + 1` Agent Runner
calls, all on the same step; it returns true exactly when its last call
succeeded with every earlier call failed (first success stops the loop),
false only when every call failed and either the budget is exhausted or an
abort was observed; it sleeps the fixed 1-second back-off once per
re-attempt; and an abort observed before the first attempt yields false
with no agent call at all. -/
theorem executeStepWithRetry_attempts (env : AgentEnv) (step : WorkflowStep)
    (st : ExecState) :
    ∃ calls : List (String × Nat),
      (executeStepWithRetry env step st).2.trace = st.trace ++ calls ∧
      calls.length ≤ step.retryCount.getD 0 + 1 ∧
      (∀ c ∈ calls, c = (step.prompt, effectiveStepTurns step)) ∧
      ((executeStepWithRetry env step st).1 = true →
        calls ≠ [] ∧
        (env.agent (st.trace.length + (calls.length - 1))).isSuccess = true ∧
        ∀ j < calls.length - 1,
          (env.agent (st.trace.length + j)).isSuccess = false) ∧
      ((executeStepWithRetry env step st).1 = false →
        (∀ j < calls.length,
          (env.agent (st.trace.length + j)).isSuccess = false) ∧
        (calls.length = step.retryCount.getD 0 + 1 ∨
          aborted env (executeStepWithRetry env step st).2 = true)) ∧
      (executeStepWithRetry env step st).2.sleptMs =
        st.sleptMs + 1000 * (calls.length - 1) ∧
      (aborted env st = true →
        calls = [] ∧ (executeStepWithRetry env step st).2 = st ∧
        (executeStepWithRetry env step st).1 = false) := by
  obtain ⟨calls, h1, h2, h3, h4, h5, h6, h7⟩ :=
    retryLoop_spec env step (step.retryCount.getD 0 + 1) true st
  exact ⟨calls, h1, h2, h3, h4, h5, by simpa using h6, h7⟩

/-- Environment for the concrete retry instance: the first call fails, the
second succeeds, no abort. -/
def envRetry : AgentEnv :=
  ⟨fun n => if n = 0 then .ok false "fail" else .ok true "fine", none⟩

/-- Step for the concrete retry instance: two re-attempts allowed. -/
def stepRetry : WorkflowStep := ⟨"r1", "R1", "try it", none, "end", "end", some 2⟩

/-- Witness for C6 at a concrete environment and step. -/
theorem executeStepWithRetry_attempts_witness :
    ∃ calls : List (String × Nat),
      (executeStepWithRetry envRetry stepRetry initState).2.trace =
        initState.trace ++ calls ∧
      calls.length ≤ stepRetry.retryCount.getD 0 + 1 ∧
      (∀ c ∈ calls, c = (stepRetry.prompt, effectiveStepTurns stepRetry)) ∧
      ((executeStepWithRetry envRetry stepRetry initState).1 = true →
        calls ≠ [] ∧
        (envRetry.agent (initState.trace.length + (calls.length - 1))).isSuccess
          = true ∧
        ∀ j < calls.length - 1,
          (envRetry.agent (initState.trace.length + j)).isSuccess = false) ∧
      ((executeStepWithRetry envRetry stepRetry initState).1 = false →
        (∀ j < calls.length,
          (envRetry.agent (initState.trace.length + j)).isSuccess = false) ∧
        (calls.length = stepRetry.retryCount.getD 0 + 1 ∨
          aborted envRetry (executeStepWithRetry envRetry stepRetry initState).2
            = true)) ∧
      (executeStepWithRetry envRetry stepRetry initState).2.sleptMs =
        initState.sleptMs + 1000 * (calls.length - 1) ∧
      (aborted envRetry initState = true →
        calls = [] ∧
        (executeStepWithRetry envRetry stepRetry initState).2 = initState ∧
        (executeStepWithRetry envRetry stepRetry initState).1 = false) :=
  executeStepWithRetry_attempts envRetry stepRetry initState

/-- A workflow whose mission is nonempty after trimming runs in mission
mode. -/
theorem missionMode_of_trim (wf : Workflow) (m : String) (hm : wf.mission = some m)
    (hne : jsTrim m ≠ "") : missionMode wf = true := by
  have hm0 : m ≠ "" := by
    intro h
    exact hne (by rw [h]; decide)
  simp [missionMode, hm, hm0, hne]

/-- Mission mode ignores everything but the mission guard. -/
theorem execute_missionMode (env : AgentEnv) (st : ExecState) (w : Workflow)
    (hw : missionMode w = true) :
    execute env w st = executeMission env w st := by
  show (if missionMode w then executeMission env w st else _) = _
  rw [if_pos hw]

/-- C3: with a nonempty (after trimming) mission, `execute` runs in mission
mode — the result and final state are independent of the `steps` field, the
Agent Runner is called exactly once with the mission text and
`maxTurns || 30`, and the result reports one executed step with
`lastStepId = "mission"` whatever the agent call does. -/
theorem execute_mission_spec (env : AgentEnv) (wf : Workflow) (m : String)
    (st : ExecState) (hm : wf.mission = some m) (hne : jsTrim m ≠ "") :
    (∀ steps2, execute env { wf with steps := steps2 } st = execute env wf st) ∧
    (execute env wf st).1.stepsExecuted = 1 ∧
    (execute env wf st).1.lastStepId = some "mission" ∧
    (execute env wf st).2.trace = st.trace ++ [(m, effectiveMissionTurns wf)] := by
  have hmm : missionMode wf = true := missionMode_of_trim wf m hm hne
  have h2 : execute env wf st = executeMission env wf st :=
    execute_missionMode env st wf hmm
  refine ⟨?_, ?_, ?_, ?_⟩
  · intro steps2
    rw [h2, execute_missionMode env st { wf with steps := steps2 } hmm]
    rfl
  · rw [h2]
    unfold executeMission
    cases henv : env.agent st.trace.length <;> simp [callAgent, henv]
  · rw [h2]
    unfold executeMission
    cases henv : env.agent st.trace.length <;> simp [callAgent, henv]
  · rw [h2]
    unfold executeMission
    cases henv : env.agent st.trace.length <;> simp [callAgent, henv, hm]

/-- Mission workflow with a deliberately self-looping steps list, for the
concrete mission-mode instance. -/
def wfMission : Workflow :=
  ⟨"wm", "WM", none, true, some " publish the daily post ", some 7,
    [⟨"s1", "loop", "loop forever", none, "s1", "s1", none⟩], 0, 0, none⟩

/-- Witness for C3 at a concrete mission workflow. -/
theorem execute_mission_spec_witness :
    (∀ steps2, execute envRetry { wfMission with steps := steps2 } initState =
      execute envRetry wfMission initState) ∧
    (execute envRetry wfMission initState).1.stepsExecuted = 1 ∧
    (execute envRetry wfMission initState).1.lastStepId = some "mission" ∧
    (execute envRetry wfMission initState).2.trace =
      initState.trace ++ [(" publish the daily post ",
        effectiveMissionTurns wfMission)] :=
  execute_mission_spec envRetry wfMission " publish the daily post " initState
    rfl (by decide)

/-- The step loop counter is bounded by 51, and it reaches 51 exactly by
tripping the execution cap, with the aborted flag necessarily unread since
the break happens directly after the loop-top check. -/
theorem execLoop_bound (env : AgentEnv) (wf : Workflow) :
    ∀ (fuel : Nat) (cur : Option WorkflowStep) (n : Nat) (last : Option String)
      (st : ExecState), n + fuel = 51 → n ≤ 50 →
      (execLoop env wf fuel cur n last st).1 ≤ 51 ∧
      ((execLoop env wf fuel cur n last st).1 = 51 →
        (execLoop env wf fuel cur n last st).2.2.1 = some limitErrorMsg ∧
        aborted env (execLoop env wf fuel cur n last st).2.2.2 = false) := by
  intro fuel
  induction fuel with
  | zero =>
    intro cur n last st h1 h2
    omega
  | succ f ih =>
    intro cur n last st h1 h2
    cases cur with
    | none =>
      refine ⟨by simp [execLoop]; omega, ?_⟩
      intro h
      simp [execLoop] at h
      omega
    | some step =>
      have heq : execLoop env wf (f + 1) (some step) n last st =
          (if aborted env st then (n, last, none, st)
           else if 50 < n + 1 then (n + 1, some step.id, some limitErrorMsg, st)
           else if !(executeStepWithRetry env step st).1 &&
               (findNextStep wf step
                 (executeStepWithRetry env step st).1).isNone then
             (n + 1, some step.id, some stepFailErrorMsg,
               (executeStepWithRetry env step st).2)
           else execLoop env wf f
             (findNextStep wf step (executeStepWithRetry env step st).1)
             (n + 1) (some step.id)
             (executeStepWithRetry env step st).2) := rfl
      rw [heq]
      by_cases hab : aborted env st = true
      · rw [if_pos hab]
        refine ⟨by omega, fun h => ?_⟩
        have h2 : n = 51 := h
        omega
      · have hab' : aborted env st = false := by
          revert hab; cases aborted env st <;> simp
        rw [if_neg hab]
        by_cases hlim : 50 < n + 1
        · rw [if_pos hlim]
          exact ⟨by omega, fun _ => ⟨rfl, hab'⟩⟩
        · rw [if_neg hlim]
          by_cases hbr : (!(executeStepWithRetry env step st).1 &&
              (findNextStep wf step (executeStepWithRetry env step st).1).isNone)
              = true
          · rw [if_pos hbr]
            refine ⟨by omega, fun h => ?_⟩
            have h2 : n + 1 = 51 := h
            omega
          · rw [if_neg hbr]
            exact ih _ (n + 1) (some step.id) _ (by omega) (by omega)

/-- C2 (amended): the `stepsExecuted` count recorded by `execute` never
exceeds 51, and whenever it reaches 51 — the execution cap tripping on the
51st loop entry, before a 51st step is attempted — the run fails with the
execution-limit-exceeded error. -/
theorem execute_step_cap (env : AgentEnv) (wf : Workflow) (st : ExecState) :
    (execute env wf st).1.stepsExecuted ≤ 51 ∧
    ((execute env wf st).1.stepsExecuted = 51 →
      (execute env wf st).1.success = false ∧
      (execute env wf st).1.error = some limitErrorMsg) := by
  by_cases hmm : missionMode wf = true
  · rw [execute_missionMode env st wf hmm]
    unfold executeMission
    simp only [callAgent]
    cases henv : env.agent st.trace.length <;> simp [henv]
  · have hmm' : missionMode wf = false := by
      revert hmm; cases missionMode wf <;> simp
    by_cases hlen : wf.steps.length = 0
    · have heq : execute env wf st =
          ({ success := false, workflowId := wf.id, stepsExecuted := 0,
             lastStepId := none, error := some emptyWorkflowErrorMsg }, st) := by
        simp [execute, hmm', hlen]
      rw [heq]
      exact ⟨by simp, fun h => by simp at h⟩
    · obtain ⟨hb, hb2⟩ :=
        execLoop_bound env wf 51 wf.steps[0]? 0 none st (by omega) (by omega)
      have heq : execute env wf st =
          (let r := execLoop env wf 51 wf.steps[0]? 0 none st
           let st1 := r.2.2.2
           let error := if aborted env st1 then some abortErrorMsg else r.2.2.1
           ({ success := !error.isSome && !aborted env st1, workflowId := wf.id,
              stepsExecuted := r.1, lastStepId := r.2.1, error := error },
             st1)) := by
        simp [execute, hmm', hlen]
      rw [heq]
      refine ⟨hb, ?_⟩
      intro h51
      simp only at h51
      obtain ⟨herr, habf⟩ := hb2 h51
      simp [herr, habf]

/-- Agent environment for the looping counterexample: every call succeeds. -/
def envLoop : AgentEnv := ⟨fun _ => .ok true "ok", none⟩

/-- A workflow with a single step whose success branch points back at
itself, driving the executor into its execution cap. -/
def wfLoop : Workflow :=
  ⟨"wl", "WL", none, true, none, none,
    [⟨"s1", "loop", "loop step", none, "s1", "end", none⟩], 0, 0, none⟩

/-- Counterexample to C2 as stated: the recorded `stepsExecuted` of a run
that trips the cap is 51, which exceeds 50. -/
theorem execute_step_cap_counterexample :
    ¬ ((execute envLoop wfLoop initState).1.stepsExecuted ≤ 50) := by decide

/-- Witness for C2 (amended) at the looping workflow. -/
theorem execute_step_cap_witness :
    (execute envLoop wfLoop initState).1.stepsExecuted ≤ 51 ∧
    ((execute envLoop wfLoop initState).1.success = false ∧
      (execute envLoop wfLoop initState).1.error = some limitErrorMsg) :=
  ⟨(execute_step_cap envLoop wfLoop initState).1,
    (execute_step_cap envLoop wfLoop initState).2 (by decide)⟩

/-- If `abort()` is delivered during the very first suspension (the first
agent call of the run), the retry machinery of the first step settles after
exactly that one call, whatever its outcome and whatever the retry budget. -/
theorem executeStepWithRetry_abort_during_first_call (env : AgentEnv)
    (step : WorkflowStep) (habort : env.abortAt = some 1) :
    executeStepWithRetry env step initState =
      ((env.agent 0).isSuccess,
        ⟨1, [(step.prompt, effectiveStepTurns step)], 0⟩) := by
  have hab0 : ¬ aborted env initState = true := by
    simp [aborted, habort, initState]
  have hab2 : aborted env
      (⟨1, [(step.prompt, effectiveStepTurns step)], 0⟩ : ExecState) = true := by
    simp [aborted, habort]
  unfold executeStepWithRetry
  generalize step.retryCount.getD 0 = r
  have heq : retryLoop env step (r + 1) true initState =
      (if aborted env initState then (false, initState)
       else if (env.agent 0).isSuccess then
         (true, ⟨1, [(step.prompt, effectiveStepTurns step)], 0⟩)
       else retryLoop env step r false
         ⟨1, [(step.prompt, effectiveStepTurns step)], 0⟩) := rfl
  rw [heq, if_neg hab0]
  cases hs : (env.agent 0).isSuccess with
  | true => rw [if_pos rfl]
  | false =>
    rw [if_neg (by simp)]
    cases r with
    | zero => rfl
    | succ r2 =>
      have heq2 : retryLoop env step (r2 + 1) false
          (⟨1, [(step.prompt, effectiveStepTurns step)], 0⟩ : ExecState) =
          (if aborted env
              (⟨1, [(step.prompt, effectiveStepTurns step)], 0⟩ : ExecState)
           then (false, ⟨1, [(step.prompt, effectiveStepTurns step)], 0⟩)
           else _) := rfl
      rw [heq2, if_pos hab2]

/-- C7: an abort delivered during the first step of a multi-step step-mode
workflow — before the second step is ever attempted — makes `execute`
return failure with the abort-specific error (not the step-failure error),
with exactly one agent call made and `stepsExecuted = 1`. -/
theorem execute_abort_before_second_step (env : AgentEnv) (wf : Workflow)
    (s1 s2 : WorkflowStep) (rest : List WorkflowStep)
    (hsteps : wf.steps = s1 :: s2 :: rest)
    (hmission : missionMode wf = false)
    (habort : env.abortAt = some 1) :
    (execute env wf initState).1.success = false ∧
    (execute env wf initState).1.error = some abortErrorMsg ∧
    (execute env wf initState).1.stepsExecuted = 1 ∧
    (execute env wf initState).1.lastStepId = some s1.id ∧
    (execute env wf initState).2.trace.length = 1 := by
  have hab0 : ¬ aborted env initState = true := by
    simp [aborted, habort, initState]
  have hretry := executeStepWithRetry_abort_during_first_call env s1 habort
  have hab2 : aborted env
      (⟨1, [(s1.prompt, effectiveStepTurns s1)], 0⟩ : ExecState) = true := by
    simp [aborted, habort]
  -- the loop settles after one iteration with the state of the single call
  have hloop : ∃ e, execLoop env wf 51 (some s1) 0 none initState =
      (1, some s1.id, e, ⟨1, [(s1.prompt, effectiveStepTurns s1)], 0⟩) := by
    have heq1 : execLoop env wf 51 (some s1) 0 none initState =
        (if aborted env initState then (0, none, none, initState)
         else if (50 : Nat) < 1 then (1, some s1.id, some limitErrorMsg, initState)
         else if !(executeStepWithRetry env s1 initState).1 &&
             (findNextStep wf s1
               (executeStepWithRetry env s1 initState).1).isNone then
           (1, some s1.id, some stepFailErrorMsg,
             (executeStepWithRetry env s1 initState).2)
         else execLoop env wf 50
           (findNextStep wf s1 (executeStepWithRetry env s1 initState).1)
           1 (some s1.id) (executeStepWithRetry env s1 initState).2) := rfl
    rw [heq1, if_neg hab0, if_neg (by omega), hretry]
    cases hs : (env.agent 0).isSuccess with
    | true =>
      rw [if_neg (by simp)]
      cases hnext : findNextStep wf s1 true with
      | none => exact ⟨none, rfl⟩
      | some s3 =>
        refine ⟨none, ?_⟩
        have heq2 : execLoop env wf 50 (some s3) 1 (some s1.id)
            (⟨1, [(s1.prompt, effectiveStepTurns s1)], 0⟩ : ExecState) =
            (if aborted env
                (⟨1, [(s1.prompt, effectiveStepTurns s1)], 0⟩ : ExecState)
             then (1, some s1.id, none,
               ⟨1, [(s1.prompt, effectiveStepTurns s1)], 0⟩)
             else _) := rfl
        rw [heq2, if_pos hab2]
    | false =>
      cases hnext : findNextStep wf s1 false with
      | none =>
        rw [if_pos (by simp [hnext])]
        exact ⟨some stepFailErrorMsg, rfl⟩
      | some s3 =>
        rw [if_neg (by simp [hnext])]
        refine ⟨none, ?_⟩
        have heq2 : execLoop env wf 50 (some s3) 1 (some s1.id)
            (⟨1, [(s1.prompt, effectiveStepTurns s1)], 0⟩ : ExecState) =
            (if aborted env
                (⟨1, [(s1.prompt, effectiveStepTurns s1)], 0⟩ : ExecState)
             then (1, some s1.id, none,
               ⟨1, [(s1.prompt, effectiveStepTurns s1)], 0⟩)
             else _) := rfl
        rw [heq2, if_pos hab2]
  obtain ⟨e, hloop⟩ := hloop
  have hlen0 : ¬ wf.steps.length = 0 := by rw [hsteps]; simp
  have hmm' : missionMode wf = false := hmission
  have hfirst : wf.steps[0]? = some s1 := by rw [hsteps]; rfl
  have hexec : execute env wf initState =
      ({ success := false, workflowId := wf.id, stepsExecuted := 1,
         lastStepId := some s1.id, error := some abortErrorMsg },
        ⟨1, [(s1.prompt, effectiveStepTurns s1)], 0⟩) := by
    have heq3 : execute env wf initState =
        (let r := execLoop env wf 51 wf.steps[0]? 0 none initState
         let st1 := r.2.2.2
         let error := if aborted env st1 then some abortErrorMsg else r.2.2.1
         ({ success := !error.isSome && !aborted env st1, workflowId := wf.id,
            stepsExecuted := r.1, lastStepId := r.2.1, error := error },
           st1)) := by
      simp [execute, hmm', hlen0]
    rw [heq3, hfirst, hloop]
    simp [hab2]
  rw [hexec]
  exact ⟨rfl, rfl, rfl, rfl, rfl⟩

/-- Environment for the concrete abort instance: the agent always succeeds
and `abort()` arrives during the first agent call. -/
def envAbort : AgentEnv := ⟨fun _ => .ok true "done", some 1⟩

/-- Two-step workflow for the concrete abort instance. -/
def wfTwoStep : Workflow :=
  ⟨"w2", "W2", none, true, none, none,
    [⟨"a1", "A1", "first", none, "next", "end", none⟩,
     ⟨"a2", "A2", "second", none, "next", "end", none⟩], 0, 0, none⟩

/-- Witness for C7 at a concrete two-step workflow. -/
theorem execute_abort_before_second_step_witness :
    (execute envAbort wfTwoStep initState).1.success = false ∧
    (execute envAbort wfTwoStep initState).1.error = some abortErrorMsg ∧
    (execute envAbort wfTwoStep initState).1.stepsExecuted = 1 ∧
    (execute envAbort wfTwoStep initState).1.lastStepId =
      some (⟨"a1", "A1", "first", none, "next", "end", none⟩ : WorkflowStep).id ∧
    (execute envAbort wfTwoStep initState).2.trace.length = 1 :=
  execute_abort_before_second_step envAbort wfTwoStep
    ⟨"a1", "A1", "first", none, "next", "end", none⟩
    ⟨"a2", "A2", "second", none, "next", "end", none⟩ [] rfl (by decide) rfl

/-- Replace the failure branch of the steps carrying the given id by the
`"end"` sentinel; all other steps are untouched. -/
def overrideFailureEnd (sid : String) (s : WorkflowStep) : WorkflowStep :=
  if s.id = sid then { s with onFailure := "end" } else s

theorem overrideFailureEnd_id (sid : String) (s : WorkflowStep) :
    (overrideFailureEnd sid s).id = s.id := by
  unfold overrideFailureEnd; split <;> rfl

theorem overrideFailureEnd_onSuccess (sid : String) (s : WorkflowStep) :
    (overrideFailureEnd sid s).onSuccess = s.onSuccess := by
  unfold overrideFailureEnd; split <;> rfl

/-- Two steps with the same prompt and turn bound behave identically in
`executeStep`. -/
theorem executeStep_congr (env : AgentEnv) {s s2 : WorkflowStep}
    (hp : s2.prompt = s.prompt) (hm : s2.maxTurns = s.maxTurns) :
    executeStep env s2 = executeStep env s := by
  funext st
  unfold executeStep callAgent effectiveStepTurns
  rw [hp, hm]

/-- The retry loop only reads the prompt and turn bound of the step. -/
theorem retryLoop_congr (env : AgentEnv) {s s2 : WorkflowStep}
    (hp : s2.prompt = s.prompt) (hm : s2.maxTurns = s.maxTurns) :
    ∀ (r : Nat) (first : Bool) (st : ExecState),
    retryLoop env s2 r first st = retryLoop env s r first st := by
  intro r
  induction r with
  | zero => intro first st; rfl
  | succ n ih =>
    intro first st
    rw [retryLoop, retryLoop, executeStep_congr env hp hm]
    simp only [ih]

/-- `executeStepWithRetry` only reads the prompt, turn bound and retry
count of the step. -/
theorem executeStepWithRetry_congr (env : AgentEnv) {s s2 : WorkflowStep}
    (hp : s2.prompt = s.prompt) (hm : s2.maxTurns = s.maxTurns)
    (hr : s2.retryCount = s.retryCount) (st : ExecState) :
    executeStepWithRetry env s2 st = executeStepWithRetry env s st := by
  unfold executeStepWithRetry
  rw [hr, retryLoop_congr env hp hm]

/-- A step resolved by `findNextStep` is an element of the steps list. -/
theorem findNextStep_mem (wf : Workflow) (step : WorkflowStep) (b : Bool)
    (s2 : WorkflowStep) (h : findNextStep wf step b = some s2) :
    s2 ∈ wf.steps := by
  simp only [findNextStep] at h
  split at h
  · cases h
  · split at h
    · split at h
      · cases h
      · split at h
        · exact List.getElem?_mem h
        · cases h
    · split at h
      · cases h
      · exact List.mem_of_find?_eq_some h

/-- Branch resolution commutes with the retry-to-end override, provided
the overridden step really carries `onFailure = "retry"`: both sentinels
resolve to no next step, and every other resolution is id-based and so
unaffected. -/
theorem findNextStep_override (wf : Workflow) (sid : String)
    (hretry : ∀ s ∈ wf.steps, s.id = sid → s.onFailure = "retry")
    (step : WorkflowStep) (hmem : step ∈ wf.steps) (b : Bool) :
    findNextStep { wf with steps := wf.steps.map (overrideFailureEnd sid) }
        (overrideFailureEnd sid step) b =
      (findNextStep wf step b).map (overrideFailureEnd sid) := by
  by_cases hid : step.id = sid ∧ b = false
  · obtain ⟨hid, hb⟩ := hid
    subst hb
    have hof : step.onFailure = "retry" := hretry step hmem hid
    have h1 : branchRef (overrideFailureEnd sid step) false = "end" := by
      simp [branchRef, overrideFailureEnd, hid]
    have h2 : branchRef step false = "retry" := by simp [branchRef, hof]
    simp [findNextStep, h1, h2]
  · have href : branchRef (overrideFailureEnd sid step) b = branchRef step b := by
      cases b with
      | false =>
        have hne : ¬ step.id = sid := fun hc => hid ⟨hc, rfl⟩
        simp [branchRef, overrideFailureEnd, hne]
      | true => simp [branchRef, overrideFailureEnd_onSuccess]
    by_cases hr1 : branchRef step b = "end"
    · simp [findNextStep, href, hr1]
    · by_cases hr2 : branchRef step b = "next"
      · simp only [findNextStep, href, hr2]
        have hpred : (fun s => decide
            (s.id = (overrideFailureEnd sid step).id)) ∘ overrideFailureEnd sid =
            (fun s => decide (s.id = step.id)) := by
          funext s
          simp [Function.comp, overrideFailureEnd_id]
        rw [List.findIdx?_map, hpred]
        cases hidx : wf.steps.findIdx? (fun s => decide (s.id = step.id)) with
        | none => simp
        | some i =>
          simp only [List.length_map, List.getElem?_map]
          by_cases hlt : i + 1 < wf.steps.length
          · simp [hlt]
          · simp [hlt]
      · by_cases hr3 : branchRef step b = "retry"
        · simp [findNextStep, href, hr1, hr2, hr3]
        · simp only [findNextStep, href, if_neg hr1, if_neg hr2, if_neg hr3]
          have hpred : (fun s => decide (s.id = branchRef step b)) ∘
              overrideFailureEnd sid = fun s => decide (s.id = branchRef step b) := by
            funext s
            simp [Function.comp, overrideFailureEnd_id]
          rw [List.find?_map, hpred]

/-- The step walk is invariant under the retry-to-end override: every
iteration makes the same agent calls, records the same step id, and takes
the same branch. -/
theorem execLoop_override (env : AgentEnv) (wf : Workflow) (sid : String)
    (hretry : ∀ s ∈ wf.steps, s.id = sid → s.onFailure = "retry") :
    ∀ (fuel : Nat) (cur : Option WorkflowStep) (n : Nat) (last : Option String)
      (st : ExecState), (∀ s, cur = some s → s ∈ wf.steps) →
    execLoop env { wf with steps := wf.steps.map (overrideFailureEnd sid) } fuel
        (cur.map (overrideFailureEnd sid)) n last st =
      execLoop env wf fuel cur n last st := by
  intro fuel
  induction fuel with
  | zero => intro cur n last st _; cases cur <;> rfl
  | succ f ih =>
    intro cur n last st hcur
    cases cur with
    | none => rfl
    | some s =>
      have hmem : s ∈ wf.steps := hcur s rfl
      have hswr : executeStepWithRetry env (overrideFailureEnd sid s) st =
          executeStepWithRetry env s st :=
        executeStepWithRetry_congr env
          (by unfold overrideFailureEnd; split <;> rfl)
          (by unfold overrideFailureEnd; split <;> rfl)
          (by unfold overrideFailureEnd; split <;> rfl) st
      have heqL : execLoop env
          { wf with steps := wf.steps.map (overrideFailureEnd sid) } (f + 1)
          (some (overrideFailureEnd sid s)) n last st =
          (if aborted env st then (n, last, none, st)
           else if 50 < n + 1 then
             (n + 1, some (overrideFailureEnd sid s).id, some limitErrorMsg, st)
           else if !(executeStepWithRetry env (overrideFailureEnd sid s) st).1 &&
               (findNextStep { wf with steps := wf.steps.map (overrideFailureEnd sid) }
                 (overrideFailureEnd sid s)
                 (executeStepWithRetry env (overrideFailureEnd sid s) st).1).isNone then
             (n + 1, some (overrideFailureEnd sid s).id, some stepFailErrorMsg,
               (executeStepWithRetry env (overrideFailureEnd sid s) st).2)
           else execLoop env
             { wf with steps := wf.steps.map (overrideFailureEnd sid) } f
             (findNextStep { wf with steps := wf.steps.map (overrideFailureEnd sid) }
               (overrideFailureEnd sid s)
               (executeStepWithRetry env (overrideFailureEnd sid s) st).1)
             (n + 1) (some (overrideFailureEnd sid s).id)
             (executeStepWithRetry env (overrideFailureEnd sid s) st).2) := rfl
      have heqR : execLoop env wf (f + 1) (some s) n last st =
          (if aborted env st then (n, last, none, st)
           else if 50 < n + 1 then (n + 1, some s.id, some limitErrorMsg, st)
           else if !(executeStepWithRetry env s st).1 &&
               (findNextStep wf s (executeStepWithRetry env s st).1).isNone then
             (n + 1, some s.id, some stepFailErrorMsg,
               (executeStepWithRetry env s st).2)
           else execLoop env wf f
             (findNextStep wf s (executeStepWithRetry env s st).1)
             (n + 1) (some s.id) (executeStepWithRetry env s st).2) := rfl
      rw [show (Option.map (overrideFailureEnd sid) (some s)) =
        some (overrideFailureEnd sid s) from rfl]
      rw [heqL, heqR, hswr, overrideFailureEnd_id,
        findNextStep_override wf sid hretry s hmem, Option.isNone_map']
      by_cases hab : aborted env st = true
      · rw [if_pos hab, if_pos hab]
      · rw [if_neg hab, if_neg hab]
        by_cases hlim : 50 < n + 1
        · rw [if_pos hlim, if_pos hlim]
        · rw [if_neg hlim, if_neg hlim]
          by_cases hbr : (!(executeStepWithRetry env s st).1 &&
              (findNextStep wf s (executeStepWithRetry env s st).1).isNone) = true
          · rw [if_pos hbr, if_pos hbr]
          · rw [if_neg hbr, if_neg hbr]
            exact ih (findNextStep wf s (executeStepWithRetry env s st).1)
              (n + 1) (some s.id) (executeStepWithRetry env s st).2
              (fun s2 hs2 => findNextStep_mem wf s _ s2 hs2)

/-- C5: changing the failure branch of a step from the `"retry"` sentinel
to the `"end"` sentinel changes nothing observable about a run — in
particular both runs report the same `success` and the same `lastStepId`
whatever the Agent Runner does. -/
theorem retry_end_equivalence (env : AgentEnv) (wf : Workflow) (sid : String)
    (st : ExecState)
    (hretry : ∀ s ∈ wf.steps, s.id = sid → s.onFailure = "retry") :
    (execute env { wf with steps := wf.steps.map (overrideFailureEnd sid) }
        st).1.success = (execute env wf st).1.success ∧
    (execute env { wf with steps := wf.steps.map (overrideFailureEnd sid) }
        st).1.lastStepId = (execute env wf st).1.lastStepId := by
  suffices h : execute env
      { wf with steps := wf.steps.map (overrideFailureEnd sid) } st =
      execute env wf st by
    rw [h]
    exact ⟨rfl, rfl⟩
  by_cases hmm : missionMode wf = true
  · rw [execute_missionMode env st wf hmm,
      execute_missionMode env st
        { wf with steps := wf.steps.map (overrideFailureEnd sid) } hmm]
    rfl
  · have hmm' : missionMode wf = false := by
      revert hmm; cases missionMode wf <;> simp
    have hmm2 : missionMode
        { wf with steps := wf.steps.map (overrideFailureEnd sid) } = false := hmm'
    by_cases hlen : wf.steps.length = 0
    · have hlen2 :
          ({ wf with steps := wf.steps.map (overrideFailureEnd sid) } :
            Workflow).steps.length = 0 := by
        simp [hlen]
      simp [execute, hmm', hmm2, hlen, hlen2]
    · have hnil : ¬ wf.steps = [] := by
        intro h
        exact hlen (by rw [h]; rfl)
      have heqR : execute env wf st =
          (let r := execLoop env wf 51 wf.steps[0]? 0 none st
           let st1 := r.2.2.2
           let error := if aborted env st1 then some abortErrorMsg else r.2.2.1
           ({ success := !error.isSome && !aborted env st1, workflowId := wf.id,
              stepsExecuted := r.1, lastStepId := r.2.1, error := error },
             st1)) := by
        simp [execute, hmm', hlen]
      have heqL : execute env
          { wf with steps := wf.steps.map (overrideFailureEnd sid) } st =
          (let r := execLoop env
             { wf with steps := wf.steps.map (overrideFailureEnd sid) } 51
             ((wf.steps[0]?).map (overrideFailureEnd sid)) 0 none st
           let st1 := r.2.2.2
           let error := if aborted env st1 then some abortErrorMsg else r.2.2.1
           ({ success := !error.isSome && !aborted env st1, workflowId := wf.id,
              stepsExecuted := r.1, lastStepId := r.2.1, error := error },
             st1)) := by
        simp [execute, hmm2, hnil]
      rw [heqL, heqR,
        execLoop_override env wf sid hretry 51 wf.steps[0]? 0 none st
          (fun s hs => List.getElem?_mem hs)]

/-- Agent environment in which every call fails, for the concrete
retry-versus-end instance. -/
def envFailAll : AgentEnv := ⟨fun _ => .ok false "nope", none⟩

/-- Workflow whose single step fails into an `onFailure = "retry"` branch. -/
def wfRetryBranch : Workflow :=
  ⟨"wr", "WR", none, true, none, none,
    [⟨"f1", "F1", "try", none, "next", "retry", some 1⟩], 0, 0, none⟩

/-- Witness for C5 at a concrete failing workflow. -/
theorem retry_end_equivalence_witness :
    (execute envFailAll
        { wfRetryBranch with
          steps := wfRetryBranch.steps.map (overrideFailureEnd "f1") }
        initState).1.success =
      (execute envFailAll wfRetryBranch initState).1.success ∧
    (execute envFailAll
        { wfRetryBranch with
          steps := wfRetryBranch.steps.map (overrideFailureEnd "f1") }
        initState).1.lastStepId =
      (execute envFailAll wfRetryBranch initState).1.lastStepId :=
  retry_end_equivalence envFailAll wfRetryBranch "f1" initState (by decide)

/-- C1: on a tick at `now`, a due workflow (enabled, schedule enabled,
truthy `nextRun ≤ now`) whose run callback raises is left completely
untouched in the store — `lastRun`, `nextRun` and `updatedAt` unchanged —
so it is due again on every later tick; when the callback returns, the
record is persisted with `lastRun = now`, `nextRun` recomputed from the
updated record, and a fresh `updatedAt`. -/
theorem checkSchedules_retry_until_success (env : SchedulerEnv) (now : Nat)
    (wf : Workflow) (sch : Schedule) (t : Nat)
    (hsch : wf.schedule = some sch) (hen : sch.enabled = true)
    (hwen : wf.enabled = true) (hnr : sch.nextRun = some t) (ht0 : t ≠ 0)
    (hdue : t ≤ now) :
    (∀ e, env.onWorkflowRun wf = .error e →
      checkSchedules env now [wf] = [wf] ∧
      ∀ now2, now ≤ now2 → isDue wf now2 = true) ∧
    (env.onWorkflowRun wf = .ok () →
      checkSchedules env now [wf] =
        [{ wf with
             updatedAt := now
             schedule := some { sch with
               lastRun := some now
               nextRun := orUndefined (calculateNextRun
                 { wf with schedule := some { sch with lastRun := some now } }
                 now) } }]) := by
  have hck : checkSchedules env now [wf] =
      processScheduledWorkflow env now [wf] wf := rfl
  have hunset : nextRunUnset sch = false := by
    simp [nextRunUnset, hnr, ht0]
  constructor
  · intro e herr
    constructor
    · rw [hck]
      simp [processScheduledWorkflow, hsch, hen, hwen, hunset, hnr, hdue, herr]
    · intro now2 hnow2
      simp [isDue, hsch, hen, hwen, hunset, hnr]
      omega
  · intro hok
    rw [hck]
    simp [processScheduledWorkflow, hsch, hen, hwen, hunset, hnr, hdue, hok,
      saveWorkflow]

/-- Scheduler callbacks that always raise. -/
def envSchedErr : SchedulerEnv := ⟨fun _ => .error "boom"⟩

/-- Scheduler callbacks that always return. -/
def envSchedOk : SchedulerEnv := ⟨fun _ => .ok ()⟩

/-- Interval schedule of the concrete scheduler instance: due since
`nextRun = 1000`. -/
def schInt : Schedule := ⟨true, .interval, some 30, none, none, some 500, some 1000⟩

/-- Workflow of the concrete scheduler instance. -/
def wfSched : Workflow :=
  ⟨"ws", "WS", none, true, none, none, [], 0, 7, some schInt⟩

/-- Witness for C1 at a concrete due workflow, for both a raising and a
returning run callback. -/
theorem checkSchedules_retry_until_success_witness :
    (checkSchedules envSchedErr 5000 [wfSched] = [wfSched] ∧
      isDue wfSched 6000 = true) ∧
    checkSchedules envSchedOk 5000 [wfSched] =
      [{ wfSched with
           updatedAt := 5000
           schedule := some { schInt with
             lastRun := some 5000
             nextRun := orUndefined (calculateNextRun
               { wfSched with
                   schedule := some { schInt with lastRun := some 5000 } }
               5000) } }] := by
  refine ⟨?_, ?_⟩
  · obtain ⟨h1, h2⟩ :=
      (checkSchedules_retry_until_success envSchedErr 5000 wfSched schInt 1000
        rfl rfl rfl rfl (by decide) (by decide)).1 "boom" rfl
    exact ⟨h1, h2 6000 (by decide)⟩
  · exact
      (checkSchedules_retry_until_success envSchedOk 5000 wfSched schInt 1000
        rfl rfl rfl rfl (by decide) (by decide)).2 rfl

/-- C8: `calculateNextRun` returns nothing without an enabled schedule; for
`interval` it returns `lastRun (or 0) + intervalMinutes · 60000`, so a
never-run workflow is due as soon as that offset has passed; for `daily` it
returns today at the configured time, rolled one day forward when that
instant is ≤ now — always a strictly future instant within a day carrying
the configured time of day; for `weekly` it returns the next strictly
future occurrence of the configured weekday at the configured time, rolling
a full week forward when today is the target day but the time has passed. -/
theorem calculateNextRun_spec :
    (∀ (wf : Workflow) (now : Nat),
      (wf.schedule = none ∨
        ∃ sch, wf.schedule = some sch ∧ sch.enabled = false) →
      calculateNextRun wf now = none) ∧
    (∀ (wf : Workflow) (sch : Schedule) (now n : Nat),
      wf.schedule = some sch → sch.enabled = true →
      sch.type = ScheduleType.interval → sch.intervalMinutes = some n →
      n ≠ 0 →
      calculateNextRun wf now = some (sch.lastRun.getD 0 + n * 60000) ∧
      (sch.lastRun = none → n * 60000 ≤ now →
        ∃ v, calculateNextRun wf now = some v ∧ v ≤ now)) ∧
    (∀ (wf : Workflow) (sch : Schedule) (now hh mm : Nat),
      wf.schedule = some sch → sch.enabled = true →
      sch.type = ScheduleType.daily → parseTimeField sch.time = (hh, mm) →
      hh < 24 → mm < 60 →
      (startOfDay now + hh * 3600000 + mm * 60000 ≤ now →
        calculateNextRun wf now =
          some (startOfDay now + hh * 3600000 + mm * 60000 + dayMs)) ∧
      (now < startOfDay now + hh * 3600000 + mm * 60000 →
        calculateNextRun wf now =
          some (startOfDay now + hh * 3600000 + mm * 60000)) ∧
      (∃ r, calculateNextRun wf now = some r ∧ now < r ∧ r ≤ now + dayMs ∧
        r % dayMs = hh * 3600000 + mm * 60000)) ∧
    (∀ (wf : Workflow) (sch : Schedule) (now hh mm d : Nat),
      wf.schedule = some sch → sch.enabled = true →
      sch.type = ScheduleType.weekly → parseTimeField sch.time = (hh, mm) →
      hh < 24 → mm < 60 → sch.dayOfWeek.getD 1 = d → d < 7 →
      (weekdayOf now = d → startOfDay now + hh * 3600000 + mm * 60000 ≤ now →
        calculateNextRun wf now =
          some (startOfDay now + hh * 3600000 + mm * 60000 + 7 * dayMs)) ∧
      (∃ r, calculateNextRun wf now = some r ∧ now < r ∧ r ≤ now + 7 * dayMs ∧
        weekdayOf r = d ∧ r % dayMs = hh * 3600000 + mm * 60000)) := by
  refine ⟨?_, ?_, ?_, ?_⟩
  · intro wf now h
    rcases h with h | ⟨sch, hsch, hdis⟩
    · simp [calculateNextRun, h]
    · simp [calculateNextRun, hsch, hdis]
  · intro wf sch now n hsch hen hty hint hn0
    cases n with
    | zero => exact absurd rfl hn0
    | succ k =>
      have hcalc : calculateNextRun wf now =
          some (sch.lastRun.getD 0 + (k + 1) * 60000) := by
        simp only [calculateNextRun, hsch, hen, hty, hint]
        simp
        ring_nf
      refine ⟨hcalc, ?_⟩
      intro hlr hnow
      exact ⟨(k + 1) * 60000, by simp [hcalc, hlr], by omega⟩
  · intro wf sch now hh mm hsch hen hty hpt hh24 hmm60
    have hcalc : calculateNextRun wf now =
        (if startOfDay now + hh * 3600000 + mm * 60000 ≤ now then
          some (startOfDay now + hh * 3600000 + mm * 60000 + dayMs)
        else some (startOfDay now + hh * 3600000 + mm * 60000)) := by
      simp [calculateNextRun, hsch, hen, hty, hpt]
    refine ⟨fun hle => by rw [hcalc, if_pos hle],
      fun hlt => by rw [hcalc, if_neg (by omega)], ?_⟩
    by_cases hle : startOfDay now + hh * 3600000 + mm * 60000 ≤ now
    · refine ⟨startOfDay now + hh * 3600000 + mm * 60000 + dayMs,
        by rw [hcalc, if_pos hle], ?_, ?_, ?_⟩ <;>
        simp only [startOfDay, dayMs] at hle ⊢ <;> omega
    · refine ⟨startOfDay now + hh * 3600000 + mm * 60000,
        by rw [hcalc, if_neg hle], ?_, ?_, ?_⟩ <;>
        simp only [startOfDay, dayMs] at hle ⊢ <;> omega
  · intro wf sch now hh mm d hsch hen hty hpt hh24 hmm60 htd hd7
    have hcalc : calculateNextRun wf now =
        some (startOfDay now + hh * 3600000 + mm * 60000 +
          ((if ((d : Int) -
                (weekdayOf (startOfDay now + hh * 3600000 + mm * 60000) : Int)
                < 0 ∨
              ((d : Int) -
                (weekdayOf (startOfDay now + hh * 3600000 + mm * 60000) : Int)
                = 0 ∧
                startOfDay now + hh * 3600000 + mm * 60000 ≤ now)) then
            (d : Int) -
              (weekdayOf (startOfDay now + hh * 3600000 + mm * 60000) : Int) + 7
          else
            (d : Int) -
              (weekdayOf (startOfDay now + hh * 3600000 + mm * 60000) : Int)
          ).toNat * dayMs)) := by
      simp only [calculateNextRun, hsch, hen, hty, hpt, htd]
      simp [Bool.or_eq_true, Bool.and_eq_true, decide_eq_true_eq]
    have hc7 : weekdayOf (startOfDay now + hh * 3600000 + mm * 60000) < 7 := by
      simp only [weekdayOf]
      omega
    have hcb : weekdayOf (startOfDay now + hh * 3600000 + mm * 60000) =
        weekdayOf now := by
      simp only [weekdayOf, startOfDay, dayMs]
      omega
    constructor
    · intro hwd hle
      rw [hcalc]
      rw [if_pos (by rw [hcb, hwd]; omega)]
      rw [hcb, hwd]
      have h0 : ((d : Int) - (d : Int) + 7).toNat = 7 := by omega
      rw [h0]
    · by_cases h1 : (d : Int) -
          (weekdayOf (startOfDay now + hh * 3600000 + mm * 60000) : Int) < 0
      · refine ⟨startOfDay now + hh * 3600000 + mm * 60000 +
          (d + 7 - weekdayOf (startOfDay now + hh * 3600000 + mm * 60000))
            * dayMs, ?_, ?_, ?_, ?_, ?_⟩
        · have h0 : ((d : Int) -
              (weekdayOf (startOfDay now + hh * 3600000 + mm * 60000) : Int)
              + 7).toNat =
              d + 7 - weekdayOf (startOfDay now + hh * 3600000 + mm * 60000) := by
            omega
          rw [hcalc, if_pos (Or.inl h1), h0]
        · simp only [startOfDay, dayMs] at hc7 h1 ⊢
          omega
        · simp only [startOfDay, dayMs, hcb, weekdayOf] at hc7 h1 ⊢
          omega
        · simp only [startOfDay, dayMs, weekdayOf] at hc7 h1 ⊢
          omega
        · simp only [startOfDay, dayMs, weekdayOf] at hc7 h1 ⊢
          omega
      · by_cases h2 : (d : Int) -
            (weekdayOf (startOfDay now + hh * 3600000 + mm * 60000) : Int) = 0
        · by_cases h3 : startOfDay now + hh * 3600000 + mm * 60000 ≤ now
          · refine ⟨startOfDay now + hh * 3600000 + mm * 60000 + 7 * dayMs,
              ?_, ?_, ?_, ?_, ?_⟩
            · rw [hcalc, if_pos (Or.inr ⟨h2, h3⟩)]
              have h0 : ((d : Int) -
                  (weekdayOf (startOfDay now + hh * 3600000 + mm * 60000) : Int)
                  + 7).toNat = 7 := by omega
              rw [h0]
            · simp only [startOfDay, dayMs] at h3 ⊢
              omega
            · simp only [startOfDay, dayMs] at h3 ⊢
              omega
            · simp only [startOfDay, dayMs, weekdayOf] at hc7 h2 ⊢
              omega
            · simp only [startOfDay, dayMs, weekdayOf] at hc7 h2 ⊢
              omega
          · refine ⟨startOfDay now + hh * 3600000 + mm * 60000, ?_, ?_, ?_,
              ?_, ?_⟩
            · have hcond : ¬ ((d : Int) -
                  (weekdayOf (startOfDay now + hh * 3600000 + mm * 60000) : Int)
                  < 0 ∨
                  ((d : Int) -
                    (weekdayOf (startOfDay now + hh * 3600000 + mm * 60000) : Int)
                    = 0 ∧
                    startOfDay now + hh * 3600000 + mm * 60000 ≤ now)) := by
                push_neg
                exact ⟨by omega, fun _ => by omega⟩
              rw [hcalc, if_neg hcond]
              have h0 : ((d : Int) -
                  (weekdayOf (startOfDay now + hh * 3600000 + mm * 60000) : Int)
                  ).toNat = 0 := by omega
              rw [h0]
              norm_num
            · omega
            · simp only [startOfDay, dayMs] at h3 ⊢
              omega
            · simp only [startOfDay, dayMs, weekdayOf] at hc7 h2 ⊢
              omega
            · simp only [startOfDay, dayMs, weekdayOf] at hc7 h2 ⊢
              omega
        · refine ⟨startOfDay now + hh * 3600000 + mm * 60000 +
            (d - weekdayOf (startOfDay now + hh * 3600000 + mm * 60000))
              * dayMs, ?_, ?_, ?_, ?_, ?_⟩
          · have h0 : ((d : Int) -
                (weekdayOf (startOfDay now + hh * 3600000 + mm * 60000) : Int)
                ).toNat =
                d - weekdayOf (startOfDay now + hh * 3600000 + mm * 60000) := by
              omega
            have hcond : ¬ ((d : Int) -
                (weekdayOf (startOfDay now + hh * 3600000 + mm * 60000) : Int)
                < 0 ∨
                ((d : Int) -
                  (weekdayOf (startOfDay now + hh * 3600000 + mm * 60000) : Int)
                  = 0 ∧
                  startOfDay now + hh * 3600000 + mm * 60000 ≤ now)) := by
              push_neg
              exact ⟨by omega, fun hc => absurd hc h2⟩
            rw [hcalc, if_neg hcond, h0]
          · simp only [startOfDay, dayMs, weekdayOf] at hc7 h1 h2 ⊢
            omega
          · simp only [startOfDay, dayMs, weekdayOf] at hc7 h1 h2 ⊢
            omega
          · simp only [startOfDay, dayMs, weekdayOf] at hc7 h1 h2 ⊢
            omega
          · simp only [startOfDay, dayMs, weekdayOf] at hc7 h1 h2 ⊢
            omega

/-- Disabled schedule for the concrete recurrence instance. -/
def schDisabled : Schedule := ⟨false, .daily, none, some "09:00", none, none, none⟩

def wfDisabled : Workflow :=
  ⟨"wd", "WD", none, true, none, none, [], 0, 0, some schDisabled⟩

/-- Daily 09:00 schedule for the concrete recurrence instance. -/
def schDailyW : Schedule := ⟨true, .daily, none, some "09:00", none, none, none⟩

def wfDailyW : Workflow :=
  ⟨"wdy", "WDY", none, true, none, none, [], 0, 0, some schDailyW⟩

/-- Weekly Monday 09:00 schedule for the concrete recurrence instance
(epoch day 20003 is a Monday in the UTC model). -/
def schWeeklyW : Schedule := ⟨true, .weekly, none, some "09:00", some 1, none, none⟩

def wfWeeklyW : Workflow :=
  ⟨"wwk", "WWK", none, true, none, none, [], 0, 0, some schWeeklyW⟩

/-- Witness for C8: a disabled schedule, a due interval, a daily tick
past 09:00 rolling to tomorrow, and a weekly tick on a Monday at 10:00
rolling a full week. -/
theorem calculateNextRun_spec_witness :
    calculateNextRun wfDisabled 777 = none ∧
    calculateNextRun wfSched 5000 = some (schInt.lastRun.getD 0 + 30 * 60000) ∧
    calculateNextRun wfDailyW (20000 * dayMs + 9 * 3600000 + 1800000) =
      some (startOfDay (20000 * dayMs + 9 * 3600000 + 1800000) + 9 * 3600000 +
        0 * 60000 + dayMs) ∧
    calculateNextRun wfWeeklyW (20003 * dayMs + 10 * 3600000) =
      some (startOfDay (20003 * dayMs + 10 * 3600000) + 9 * 3600000 +
        0 * 60000 + 7 * dayMs) := by
  refine ⟨?_, ?_, ?_, ?_⟩
  · exact calculateNextRun_spec.1 wfDisabled 777 (Or.inr ⟨schDisabled, rfl, rfl⟩)
  · exact (calculateNextRun_spec.2.1 wfSched schInt 5000 30 rfl rfl rfl rfl
      (by decide)).1
  · exact (calculateNextRun_spec.2.2.1 wfDailyW schDailyW _ 9 0 rfl rfl rfl
      (by decide) (by decide) (by decide)).1 (by decide)
  · exact (calculateNextRun_spec.2.2.2 wfWeeklyW schWeeklyW _ 9 0 1 rfl rfl rfl
      (by decide) (by decide) (by decide) (by decide) (by decide)).1
      (by decide) (by decide)

end PiBrowser
